import Mathlib

/-
  Verification of the groceries-etl deal-extraction and idempotent-load core.

  Shallow embedding conventions:
  * Python strings are modelled as lists of Unicode codepoints (`List Nat`);
    `codes` converts a Lean string literal to that representation.
  * Python `Decimal` values are modelled as exact rationals (`ℚ`);
    `round(float(x), 2)` is modelled as half-even rounding of the exact
    rational to two decimal places (`pyRound2`).
  * Python truthiness of `Optional[Decimal]` / `Optional[str]` values
    (`None` and `Decimal(0)` / `""` are falsy) is `pyTruthyQ` / `pyTruthyStr`.
  * The regex `\d` is modelled as the ASCII digits.
-/

/-- Codepoints of a Lean string literal, used to write Python string values. -/
def codes (s : String) : List Nat := s.toList.map Char.toNat

/-- Python `str.strip()` whitespace test (ASCII whitespace codepoints). -/
def pyIsSpace (c : Nat) : Bool := decide (c = 32 ∨ c = 9 ∨ c = 10 ∨ c = 13 ∨ c = 11 ∨ c = 12)

/-- ASCII digit test, modelling the regex class `\d`. -/
def isDigitCode (c : Nat) : Bool := decide (48 ≤ c ∧ c ≤ 57)

/-- Python `str.lower()` on one codepoint (ASCII letter range). -/
def pyLowerCode (c : Nat) : Nat := if 65 ≤ c ∧ c ≤ 90 then c + 32 else c

/-- Python `str.lower()`. -/
def pyLower (s : List Nat) : List Nat := s.map pyLowerCode

/-- Python `str.strip()`: drop whitespace from both ends. -/
def pyStrip (s : List Nat) : List Nat :=
  List.rdropWhile pyIsSpace (s.dropWhile pyIsSpace)

/-- `s1.replace('$','').replace(',','').strip()` in the price parsers. -/
def pyCleanPrice (s : List Nat) : List Nat :=
  pyStrip (s.filter (fun c => decide (¬(c = 36 ∨ c = 44))))

/-- After `\d+`, the regex tail `\.?\d*`: an optional dot followed by digits.
    Returns the consumed part of the match and the rest of the input. -/
def numTail (l : List Nat) : List Nat × List Nat :=
  match l with
  | c :: rest =>
      if c = 46 then (46 :: rest.takeWhile isDigitCode, rest.dropWhile isDigitCode)
      else ([], c :: rest)
  | [] => ([], [])

/-- `re.search(r'(\d+\.?\d*)', ·)`: leftmost match of a decimal-or-integer
    numeral. Returns the matched token and the remaining input after it. -/
def scanNumeral : List Nat → Option (List Nat × List Nat)
  | [] => none
  | c :: rest =>
      if isDigitCode c then
        let ds := rest.takeWhile isDigitCode
        let t := numTail (rest.dropWhile isDigitCode)
        some (c :: ds ++ t.1, t.2)
      else scanNumeral rest

/-- Value of a digit string. -/
def digitsToNat (l : List Nat) : Nat := l.foldl (fun a c => a * 10 + (c - 48)) 0

/-- `Decimal(group)`: exact value of a matched numeral token. -/
def numValue (tok : List Nat) : ℚ :=
  let ip := tok.takeWhile isDigitCode
  match tok.dropWhile isDigitCode with
  | 46 :: fr => (digitsToNat ip : ℚ) + (digitsToNat fr : ℚ) / ((10 : ℚ) ^ fr.length)
  | _ => (digitsToNat ip : ℚ)

namespace HmartScraper

/-- `HmartScraper.parse_price`: strip `$`, `,` and whitespace, then return the
    value of the first embedded numeral, or `None`. -/
def parse_price (s : List Nat) : Option ℚ :=
  if s = [] then none
  else
    match scanNumeral (pyCleanPrice s) with
    | none => none
    | some t => some (numValue t.1)

end HmartScraper

namespace StewLeonardsScraper

/-- `StewLeonardsScraper.parse_price`: like the Hmart parser, but a matched
    numeral that is `>= 100` and contains no decimal point is interpreted as a
    cents-format amount and divided by 100 (`'.' not in match.group(1)`). -/
def parse_price (s : List Nat) : Option ℚ :=
  if s = [] then none
  else
    match scanNumeral (pyCleanPrice s) with
    | none => none
    | some t =>
        let v := numValue t.1
        if 100 ≤ v ∧ ¬ 46 ∈ t.1 then some (v / 100) else some v

end StewLeonardsScraper

/-- Python truthiness of an `Optional[Decimal]`: `None` and `Decimal(0)` are falsy. -/
def pyTruthyQ (o : Option ℚ) : Bool :=
  match o with
  | none => false
  | some q => decide (q ≠ 0)

/-- Round a rational to the nearest integer, ties to even
    (the rounding Python `round` uses). -/
def roundHalfEvenZ (q : ℚ) : ℤ :=
  if q - ⌊q⌋ < 1/2 then ⌊q⌋
  else if 1/2 < q - ⌊q⌋ then ⌊q⌋ + 1
  else if ⌊q⌋ % 2 = 0 then ⌊q⌋ else ⌊q⌋ + 1

/-- Model of `Decimal(str(round(float(x), 2)))`: half-even rounding of the
    exact rational to two decimal places. -/
def pyRound2 (q : ℚ) : ℚ := (roundHalfEvenZ (q * 100) : ℚ) / 100

/-- `calculate_discount`, identical in `HmartScraper` and
    `StewLeonardsScraper`: `None` if either price is falsy, the regular price
    is `<= 0`, or `sale >= regular`; otherwise
    `round(((regular - sale) / regular) * 100, 2)`. -/
def calculate_discount (regular_price sale_price : Option ℚ) : Option ℚ :=
  if ¬ pyTruthyQ regular_price ∨ ¬ pyTruthyQ sale_price then none
  else
    match regular_price, sale_price with
    | some r, some s =>
        if r ≤ 0 then none
        else if r ≤ s then none
        else some (pyRound2 ((r - s) / r * 100))
    | _, _ => none

/-! ### Price-role disambiguation (`scrape_weekly_ads` per-item price loop) -/

/-- `sub in hay` for codepoint lists: `listHasPrefix sub l` tests whether `sub`
    is an initial segment of `l`. -/
def listHasPrefix : List Nat → List Nat → Bool
  | [], _ => true
  | _ :: _, [] => false
  | a :: as, b :: bs => decide (a = b) && listHasPrefix as bs

/-- Python substring containment `sub in hay`. -/
def listHasSubstring (sub : List Nat) : List Nat → Bool
  | [] => listHasPrefix sub []
  | c :: rest => listHasPrefix sub (c :: rest) || listHasSubstring sub rest

/-- One price-bearing element of a product item: its text, the joined class
    attribute string, and the enclosing parent's text. -/
structure PriceFrag where
  text : List Nat
  classes : List Nat
  parentText : List Nat
deriving DecidableEq

/-- Regular-leaning keyword vocabulary of the classify loop. -/
def REGULAR_INDICATORS : List (List Nat) :=
  [codes "regular", codes "original", codes "was", codes "list",
   codes "before", codes "compare", codes "strike", codes "del"]

/-- Sale-leaning keyword vocabulary of the classify loop. -/
def SALE_INDICATORS : List (List Nat) :=
  [codes "sale", codes "discount", codes "now", codes "special",
   codes "deal", codes "price"]

/-- `any(indicator in classes or indicator in parent_text for indicator in inds)`
    where the code lowercases both context strings first. -/
def hasIndicator (inds : List (List Nat)) (f : PriceFrag) : Bool :=
  inds.any (fun ind =>
    listHasSubstring ind (pyLower f.classes) || listHasSubstring ind (pyLower f.parentText))

/-- `is_regular` classification of one price fragment. -/
def fragIsRegular (f : PriceFrag) : Bool := hasIndicator REGULAR_INDICATORS f

/-- `is_sale` classification of one price fragment. -/
def fragIsSale (f : PriceFrag) : Bool := hasIndicator SALE_INDICATORS f

/-- One iteration of the classify loop over price elements: state is the
    current `(regular_price, sale_price)` pair. A falsy parse result is
    skipped (`if not price_val: continue`); then the `is_regular` /
    `is_sale` / ambiguous branches of the source. -/
def stepPrice (st : Option ℚ × Option ℚ) (f : PriceFrag) : Option ℚ × Option ℚ :=
  match HmartScraper.parse_price f.text with
  | none => st
  | some v =>
      if v = 0 then st
      else if fragIsRegular f ∧ ¬ pyTruthyQ st.1 then (some v, st.2)
      else if fragIsSale f ∧ ¬ pyTruthyQ st.2 then (st.1, some v)
      else if ¬ fragIsRegular f ∧ ¬ fragIsSale f then
        if ¬ pyTruthyQ st.2 then (st.1, some v)
        else if ¬ pyTruthyQ st.1 then
          match st.2 with
          | some s => if s < v then (some v, st.2) else (st.2, some v)
          | none => st
        else st
      else st

/-- Strikethrough/was-original prepass: the first truthy parsed price among
    the strikethrough-styled elements becomes the regular price. -/
def strikethroughPass (texts : List (List Nat)) : Option ℚ :=
  texts.foldl
    (fun rp t =>
      match HmartScraper.parse_price t with
      | some v => if v ≠ 0 ∧ ¬ pyTruthyQ rp then some v else rp
      | none => rp)
    none

/-- `re.findall(r'\$?\s*(\d+\.?\d*)', ·)`: every non-overlapping numeral
    token in the item's full text, left to right. -/
def findNumerals (l : List Nat) : List (List Nat) :=
  match h : scanNumeral l with
  | none => []
  | some t => t.1 :: findNumerals t.2
termination_by l.length
decreasing_by
  have key : ∀ (l' : List Nat) (t' : List Nat × List Nat),
      scanNumeral l' = some t' → t'.2.length < l'.length := by
    intro l'
    induction l' with
    | nil => intro t' ht; simp [scanNumeral] at ht
    | cons c rest ih =>
        intro t' ht
        by_cases hd : isDigitCode c = true
        · simp only [scanNumeral, hd, if_true] at ht
          cases ht
          have h1 : (numTail (rest.dropWhile isDigitCode)).2.length ≤
              (rest.dropWhile isDigitCode).length := by
            cases hcase : rest.dropWhile isDigitCode with
            | nil => simp [numTail]
            | cons a r2 =>
                by_cases ha : a = 46
                · have h3 : (List.dropWhile isDigitCode r2).length ≤ r2.length :=
                    (List.dropWhile_suffix _).sublist.length_le
                  simp only [numTail, ha, if_true, List.length_cons]
                  omega
                · simp [numTail, ha]
          have h2 : (rest.dropWhile isDigitCode).length ≤ rest.length :=
            (List.dropWhile_suffix _).sublist.length_le
          simp only [List.length_cons]
          omega
        · simp only [scanNumeral, hd, if_false, Bool.false_eq_true] at ht
          have := ih _ ht
          simp only [List.length_cons]
          omega
  exact key l _ h

/-- Re-scan of the full item text when a regular price was found but no sale
    price: the first numeral strictly below the regular price becomes sale. -/
def rescanLowerPrice (fullText : List Nat) (r : ℚ) : Option ℚ :=
  ((findNumerals fullText).map numValue).find? (fun v => decide (v < r))

/-- All price-related inputs of one product item. -/
structure Item where
  strikethroughTexts : List (List Nat)
  priceFrags : List PriceFrag
  fullText : List Nat
  mainPriceText : Option (List Nat)
deriving DecidableEq

/-- Re-scan stage: `if regular_price and not sale_price`, scan the full item
    text for the first numeral strictly below the regular price. -/
def rescanStage (fullText : List Nat) (st : Option ℚ × Option ℚ) : Option ℚ × Option ℚ :=
  if pyTruthyQ st.1 ∧ ¬ pyTruthyQ st.2 then
    match st.1 with
    | some r =>
        match rescanLowerPrice fullText r with
        | some v => (st.1, some v)
        | none => st
    | none => st
  else st

/-- Fallback stage: `if not sale_price and not regular_price`, take the sale
    price from the main price element, when one exists. -/
def fallbackStage (mainPriceText : Option (List Nat)) (st : Option ℚ × Option ℚ) :
    Option ℚ × Option ℚ :=
  if ¬ pyTruthyQ st.2 ∧ ¬ pyTruthyQ st.1 then
    match mainPriceText with
    | some t => (st.1, HmartScraper.parse_price t)
    | none => st
  else st

/-- The full price-role disambiguation of `scrape_weekly_ads` for one item:
    strikethrough prepass, classify loop, lower-price re-scan, and the
    single-price fallback element. -/
def resolvePrices (it : Item) : Option ℚ × Option ℚ :=
  fallbackStage it.mainPriceText
    (rescanStage it.fullText
      (it.priceFrags.foldl stepPrice (strikethroughPass it.strikethroughTexts, none)))

/-- Final price-order consistency pass: when both prices are truthy, swap
    them if `sale > regular`, and discard the regular price if they are
    equal. -/
def fixPriceOrder (rp sp : Option ℚ) : Option ℚ × Option ℚ :=
  if pyTruthyQ rp ∧ pyTruthyQ sp then
    match rp, sp with
    | some r, some s =>
        if r < s then (some s, some r)
        else if s = r then (none, some s)
        else (some r, some s)
    | _, _ => (rp, sp)
  else (rp, sp)

/-! ### Default validity window (`scrape_weekly_ads` date defaulting) -/

/-- Python `date.weekday()` on a proleptic-Gregorian ordinal
    (`date.toordinal()`; day 1 is 0001-01-01, a Monday): 0 = Monday
    through 6 = Sunday. -/
def pyWeekday (o : ℤ) : ℤ := (o - 1) % 7

/-- The default validity window of the weekly-ads scrapers:
    `days_since_sunday = today.weekday() + 1`,
    `valid_from = today - days_since_sunday`,
    `valid_to = valid_from + 6`, on date ordinals. -/
def defaultValidityWindow (today : ℤ) : ℤ × ℤ :=
  (today - (pyWeekday today + 1), today - (pyWeekday today + 1) + 6)

/-! ### Deterministic identity (`generate_grocery_deal_uuid`): UUIDv5 = SHA-1 -/

/-- Truncate to a 32-bit word. -/
def w32 (n : Nat) : Nat := n % 4294967296

/-- Left-rotate a 32-bit word by `k` bits. -/
def rotl (k n : Nat) : Nat := w32 (n * 2 ^ k + n / 2 ^ (32 - k))

/-- SHA-1 round function. -/
def sha1F (t b c d : Nat) : Nat :=
  if t < 20 then Nat.lor (Nat.land b c) (Nat.land (Nat.xor b 4294967295) d)
  else if t < 40 then Nat.xor (Nat.xor b c) d
  else if t < 60 then Nat.lor (Nat.lor (Nat.land b c) (Nat.land b d)) (Nat.land c d)
  else Nat.xor (Nat.xor b c) d

/-- SHA-1 round constants. -/
def sha1K (t : Nat) : Nat :=
  if t < 20 then 1518500249
  else if t < 40 then 1859775393
  else if t < 60 then 2400959708
  else 3395469782

/-- Big-endian bytes of `n`, `k` bytes wide. -/
def natBE : Nat → Nat → List Nat
  | 0, _ => []
  | k + 1, n => natBE k (n / 256) ++ [n % 256]

/-- Big-endian 32-bit words of a byte list. -/
def bytesToWords : List Nat → List Nat
  | a :: b :: c :: d :: rest => (a * 16777216 + b * 65536 + c * 256 + d) :: bytesToWords rest
  | _ => []

/-- Extend the 16-word message schedule by `k` further words. -/
def sha1Extend (ws : List Nat) : Nat → List Nat
  | 0 => ws
  | k + 1 =>
      let n := ws.length
      sha1Extend
        (ws ++ [rotl 1 (Nat.xor (Nat.xor (ws.getD (n - 3) 0) (ws.getD (n - 8) 0))
                        (Nat.xor (ws.getD (n - 14) 0) (ws.getD (n - 16) 0)))]) k

/-- One SHA-1 compression round over state `(a, b, c, d, e)`. -/
def sha1Round (w : List Nat) (st : Nat × Nat × Nat × Nat × Nat) (t : Nat) :
    Nat × Nat × Nat × Nat × Nat :=
  let (a, b, c, d, e) := st
  let temp := w32 (rotl 5 a + sha1F t b c d + e + sha1K t + w.getD t 0)
  (temp, a, rotl 30 b, c, d)

/-- Process one 64-byte chunk. -/
def sha1Compress (h : Nat × Nat × Nat × Nat × Nat) (chunk : List Nat) :
    Nat × Nat × Nat × Nat × Nat :=
  let ws := sha1Extend (bytesToWords chunk) 64
  let (a, b, c, d, e) := (List.range 80).foldl (sha1Round ws) h
  (w32 (h.1 + a), w32 (h.2.1 + b), w32 (h.2.2.1 + c), w32 (h.2.2.2.1 + d), w32 (h.2.2.2.2 + e))

/-- SHA-1 padding: `0x80`, zeros to 56 mod 64, then the 64-bit big-endian
    bit length. -/
def sha1Pad (msg : List Nat) : List Nat :=
  msg ++ 128 :: List.replicate ((119 - msg.length % 64) % 64) 0 ++ natBE 8 (msg.length * 8)

/-- Split a byte list into 64-byte chunks. -/
def chunks64 (l : List Nat) : List (List Nat) :=
  if h : l = [] then []
  else l.take 64 :: chunks64 (l.drop 64)
termination_by l.length
decreasing_by
  simp only [List.length_drop]
  have : 0 < l.length := List.length_pos.mpr h
  omega

/-- SHA-1 digest (20 bytes) of a byte list. -/
def sha1 (msg : List Nat) : List Nat :=
  let st := (chunks64 (sha1Pad msg)).foldl sha1Compress
    (1732584193, 4023233417, 2562383102, 271733878, 3285377520)
  natBE 4 st.1 ++ natBE 4 st.2.1 ++ natBE 4 st.2.2.1 ++ natBE 4 st.2.2.2.1 ++ natBE 4 st.2.2.2.2

/-- Byte encoding of the hardcoded namespace constant
    `GROCERY_DEAL_UUID_NAMESPACE = UUID('6ba7b811-9dad-11d1-80b4-00c04fd430c8')`. -/
def GROCERY_DEAL_UUID_NAMESPACE : List Nat :=
  [107, 167, 184, 17, 157, 173, 17, 209, 128, 180, 0, 192, 79, 212, 48, 200]

/-- UTF-8 encoding of one codepoint. -/
def utf8Bytes (cp : Nat) : List Nat :=
  if cp < 128 then [cp]
  else if cp < 2048 then [192 + cp / 64, 128 + cp % 64]
  else if cp < 65536 then [224 + cp / 4096, 128 + cp / 64 % 64, 128 + cp % 64]
  else [240 + cp / 262144, 128 + cp / 4096 % 64, 128 + cp / 64 % 64, 128 + cp % 64]

/-- UTF-8 encoding of a codepoint string (`name.encode('utf-8')` in `uuid5`). -/
def utf8Encode (l : List Nat) : List Nat := l.flatMap utf8Bytes

/-- `uuid.uuid5`: first 16 bytes of `sha1(namespace_bytes + name_bytes)` with
    the version nibble set to 5 and the RFC 4122 variant bits set. -/
def uuid5Bytes (ns name : List Nat) : List Nat :=
  let d := sha1 (ns ++ name)
  let b := fun i => d.getD i 0
  [b 0, b 1, b 2, b 3, b 4, b 5,
   Nat.lor (Nat.land (b 6) 15) 80, b 7,
   Nat.lor (Nat.land (b 8) 63) 128, b 9,
   b 10, b 11, b 12, b 13, b 14, b 15]

/-- Lowercase hex digit codepoint. -/
def hexDigitCode (n : Nat) : Nat := if n < 10 then 48 + n else 87 + n

/-- Two lowercase hex digits of a byte. -/
def hex2 (b : Nat) : List Nat := [hexDigitCode (b / 16 % 16), hexDigitCode (b % 16)]

/-- `str(UUID(...))`: canonical 8-4-4-4-12 hyphenated lowercase hex form. -/
def uuidStringCodes (bs : List Nat) : List Nat :=
  let g := fun i => hex2 (bs.getD i 0)
  g 0 ++ g 1 ++ g 2 ++ g 3 ++ [45] ++ g 4 ++ g 5 ++ [45] ++ g 6 ++ g 7 ++ [45] ++
    g 8 ++ g 9 ++ [45] ++ g 10 ++ g 11 ++ g 12 ++ g 13 ++ g 14 ++ g 15

/-- Decimal digit codepoints of a natural number. -/
def natCodes (n : Nat) : List Nat := (Nat.toDigits 10 n).map Char.toNat

/-- `str` of a Python int. -/
def intCodes (i : Int) : List Nat :=
  if i < 0 then 45 :: natCodes i.natAbs else natCodes i.natAbs

/-- Left-pad with `'0'` to width `k` (as in `date` formatting). -/
def zfill (k : Nat) (l : List Nat) : List Nat := List.replicate (k - l.length) 48 ++ l

/-- A Python `datetime.date` value. -/
structure PyDate where
  year : Nat
  month : Nat
  day : Nat
deriving DecidableEq

/-- `str(date)`: ISO `YYYY-MM-DD` codepoints. -/
def PyDate.isoCodes (d : PyDate) : List Nat :=
  zfill 4 (natCodes d.year) ++ [45] ++ zfill 2 (natCodes d.month) ++ [45] ++
    zfill 2 (natCodes d.day)

/-- `generate_grocery_deal_uuid`: normalize the product name
    (`strip().lower()`), join the fields with `:` into the content string,
    and take `uuid5` of it under the hardcoded namespace. -/
def generate_grocery_deal_uuid (product_name : List Nat) (store_id : Int)
    (valid_from valid_to : PyDate) : List Nat :=
  let normalized_product := pyLower (pyStrip product_name)
  let content := normalized_product ++ [58] ++ intCodes store_id ++ [58] ++
    valid_from.isoCodes ++ [58] ++ valid_to.isoCodes
  uuidStringCodes (uuid5Bytes GROCERY_DEAL_UUID_NAMESPACE (utf8Encode content))

/-! ### Data model, persistent store, and the idempotent loader -/

/-- The `GroceryDeal` pydantic model (persistence-relevant fields). -/
structure GroceryDeal where
  id : Option Nat
  uuid : Option (List Nat)
  store_id : Int
  product_name : List Nat
  category_id : Option Nat
  regular_price : Option ℚ
  sale_price : Option ℚ
  unit : Option (List Nat)
  quantity : Option ℚ
  discount_percentage : Option ℚ
  valid_from : PyDate
  valid_to : PyDate
  source_url : Option (List Nat)
  image_url : Option (List Nat)
  description : Option (List Nat)
deriving DecidableEq

/-- Python truthiness of an `Optional[str]`: `None` and `""` are falsy. -/
def pyTruthyStr (o : Option (List Nat)) : Bool :=
  match o with
  | none => false
  | some s => decide (s ≠ [])

/-- One persisted row: the store-assigned integer key plus the deal fields. -/
structure DealRow where
  id : Nat
  deal : GroceryDeal
deriving DecidableEq

/-- Modelled from the spec: the persistent store (its schema lives in the
    missing `groceries/database` connection module) is a row store whose
    `grocery_deals` table enforces a uniqueness constraint on `uuid` and
    assigns sequential integer identifiers. -/
structure Database where
  rows : List DealRow
  nextId : Nat
deriving DecidableEq

/-- A store that starts empty. -/
def emptyDB : Database := ⟨[], 1⟩

/-- Modelled from the spec: `INSERT INTO grocery_deals ... RETURNING *` —
    rejected exactly when the `uuid` uniqueness constraint is violated,
    otherwise the row is appended with a fresh identifier. -/
def dbInsert (db : Database) (d : GroceryDeal) : Option DealRow × Database :=
  if db.rows.any (fun r => decide (r.deal.uuid = d.uuid)) then (none, db)
  else
    let row : DealRow := ⟨db.nextId, { d with id := some db.nextId }⟩
    (some row, ⟨db.rows ++ [row], db.nextId + 1⟩)

/-- `GroceryService.get_by_uuid`: point lookup by the identity key. -/
def dbGetByUuid (db : Database) (u : List Nat) : Option DealRow :=
  db.rows.find? (fun r => decide (r.deal.uuid = some u))

/-- `GroceryService.create` step 1: generate the deterministic UUID when the
    deal's `uuid` field is falsy. -/
def applyUuid (d : GroceryDeal) : GroceryDeal :=
  if pyTruthyStr d.uuid then d
  else
    let u := generate_grocery_deal_uuid d.product_name d.store_id d.valid_from d.valid_to
    { d with uuid := some u }

/-- `GroceryService.create` step 2: when `discount_percentage` is `None` and
    both prices are truthy, recompute
    `round(((regular - sale) / regular) * 100, 2)` — with no guard on the
    price order. -/
def applyDiscountRecompute (d : GroceryDeal) : GroceryDeal :=
  if d.discount_percentage = none ∧ pyTruthyQ d.regular_price ∧ pyTruthyQ d.sale_price then
    match d.regular_price, d.sale_price with
    | some r, some s => { d with discount_percentage := some (pyRound2 ((r - s) / r * 100)) }
    | _, _ => d
  else d

namespace GroceryService

/-- `GroceryService.create`: mutate the deal (uuid, discount), insert it, and
    return the fetched created row, or `None` on any insert error (in
    particular a duplicate `uuid`). Also returns the mutated deal, since the
    caller reads `deal.uuid` afterwards, and the resulting store state. -/
def create (db : Database) (deal : GroceryDeal) : Option GroceryDeal × GroceryDeal × Database :=
  let d := applyDiscountRecompute (applyUuid deal)
  match dbInsert db d with
  | (some row, db') => (some row.deal, d, db')
  | (none, db') => (none, d, db')

end GroceryService

/-- A staged JSON record as read from one file of `data/stage`: each Deal
    attribute either absent (missing or `null`) or present with its
    JSON-level value; dates are ISO strings, numeric fields are numbers. -/
structure RawDeal where
  uuid : Option (List Nat)
  store_id : Option Int
  product_name : Option (List Nat)
  category_id : Option Nat
  regular_price : Option ℚ
  sale_price : Option ℚ
  unit : Option (List Nat)
  quantity : Option ℚ
  discount_percentage : Option ℚ
  valid_from : Option (List Nat)
  valid_to : Option (List Nat)
  source_url : Option (List Nat)
  image_url : Option (List Nat)
  description : Option (List Nat)
deriving DecidableEq

/-- Gregorian leap-year rule. -/
def isLeapYear (y : Nat) : Bool :=
  decide ((y % 4 = 0 ∧ ¬ y % 100 = 0) ∨ y % 400 = 0)

/-- Days in a month. -/
def daysInMonth (y m : Nat) : Nat :=
  if m = 2 then (if isLeapYear y then 29 else 28)
  else if m = 4 ∨ m = 6 ∨ m = 9 ∨ m = 11 then 30
  else 31

/-- `date.fromisoformat` on the strict `YYYY-MM-DD` form the staging files
    use: digits in the right places, and a calendar-valid date. -/
def parseIsoDate (s : List Nat) : Option PyDate :=
  match s with
  | [y1, y2, y3, y4, h1, m1, m2, h2, d1, d2] =>
      if (isDigitCode y1 && isDigitCode y2 && isDigitCode y3 && isDigitCode y4 &&
          isDigitCode m1 && isDigitCode m2 && isDigitCode d1 && isDigitCode d2) = true ∧
          h1 = 45 ∧ h2 = 45 then
        let y := digitsToNat [y1, y2, y3, y4]
        let m := digitsToNat [m1, m2]
        let d := digitsToNat [d1, d2]
        if 1 ≤ y ∧ 1 ≤ m ∧ m ≤ 12 ∧ 1 ≤ d ∧ d ≤ daysInMonth y m then
          some ⟨y, m, d⟩
        else none
      else none
  | _ => none

/-- The validation stage of `load_deal_from_json`: parse the ISO date strings
    (`date.fromisoformat` raises on malformed input) and
    `GroceryDeal.model_validate` the document — the pydantic model only
    checks presence and types of the required fields (`store_id`,
    `product_name`, `valid_from`, `valid_to`); it has no range validators.
    Any exception yields `none` — the record is reported failed. -/
def validateStaged (raw : RawDeal) : Option GroceryDeal :=
  match raw.store_id, raw.product_name, raw.valid_from, raw.valid_to with
  | some sid, some name, some vfs, some vts =>
      match parseIsoDate vfs, parseIsoDate vts with
      | some vf, some vt =>
          some
            { id := none
              uuid := raw.uuid
              store_id := sid
              product_name := name
              category_id := raw.category_id
              regular_price := raw.regular_price
              sale_price := raw.sale_price
              unit := raw.unit
              quantity := raw.quantity
              discount_percentage := raw.discount_percentage
              valid_from := vf
              valid_to := vt
              source_url := raw.source_url
              image_url := raw.image_url
              description := raw.description }
      | _, _ => none
  | _, _, _, _ => none

/-- The per-record outcome dictionary of `load_deal_from_json`. -/
structure LoadResult where
  success : Bool
  already_exists : Bool
  error : Option (List Nat)
  deal_id : Option Nat
deriving DecidableEq

/-- `load_deal_from_json` (non-dry-run): validate, then create; on a create
    failure, look the record up by `uuid` and report duplicate success when it
    already exists, otherwise failure. Validation failure reports the record
    failed with the validation error and writes nothing. -/
def load_deal_from_json (raw : RawDeal) (db : Database) : LoadResult × Database :=
  match validateStaged raw with
  | none =>
      ({ success := false, already_exists := false,
         error := some (codes "validation error"), deal_id := none }, db)
  | some deal =>
      match GroceryService.create db deal with
      | (some created, _, db') =>
          ({ success := true, already_exists := false, error := none,
             deal_id := created.id }, db')
      | (none, d', db') =>
          match d'.uuid, pyTruthyStr d'.uuid with
          | some u, true =>
              match dbGetByUuid db' u with
              | some existing =>
                  ({ success := true, already_exists := true, error := none,
                     deal_id := some existing.id }, db')
              | none =>
                  ({ success := false, already_exists := false,
                     error := some (codes "Failed to create deal (unknown reason)"),
                     deal_id := none }, db')
          | _, _ =>
              ({ success := false, already_exists := false,
                 error := some (codes "Failed to create deal (unknown reason)"),
                 deal_id := none }, db')

/-- `load_directory`: process the staged files one after the other,
    accumulating store state. -/
def loadDirectory (db : Database) (raws : List RawDeal) : Database :=
  raws.foldl (fun dbx raw => (load_deal_from_json raw dbx).2) db

/-- A staged record violating every range check of §3: empty product name,
    negative sale price, and `valid_from` after `valid_to` — but well-typed. -/
def rawRangeViolations : RawDeal :=
  { uuid := some (codes "u-8"), store_id := some 1, product_name := some [],
    category_id := none, regular_price := none, sale_price := some (-1),
    unit := none, quantity := none, discount_percentage := none,
    valid_from := some (codes "2025-01-07"), valid_to := some (codes "2025-01-01"),
    source_url := none, image_url := none, description := none }

/-- A staged record whose `valid_from` string is not a date: shape-invalid. -/
def rawBadDate : RawDeal :=
  { uuid := some (codes "u-w"), store_id := some 1, product_name := some (codes "ok"),
    category_id := none, regular_price := none, sale_price := none,
    unit := none, quantity := none, discount_percentage := none,
    valid_from := some (codes "not-a-date"), valid_to := some (codes "2025-01-01"),
    source_url := none, image_url := none, description := none }

/-- A concrete well-formed staged record for witnessing the idempotent load. -/
def rawStaged1 : RawDeal :=
  { uuid := some (codes "w-1"), store_id := some 1,
    product_name := some (codes "milk"), category_id := none,
    regular_price := none, sale_price := none, unit := none, quantity := none,
    discount_percentage := none, valid_from := some (codes "2025-01-01"),
    valid_to := some (codes "2025-01-07"), source_url := none,
    image_url := none, description := none }

/-- The deal `rawStaged1` validates to. -/
def dealStaged1 : GroceryDeal :=
  { id := none, uuid := some (codes "w-1"), store_id := 1,
    product_name := codes "milk", category_id := none, regular_price := none,
    sale_price := none, unit := none, quantity := none,
    discount_percentage := none, valid_from := ⟨2025, 1, 1⟩,
    valid_to := ⟨2025, 1, 7⟩, source_url := none, image_url := none,
    description := none }

/-! ## Helper lemmas -/

theorem roundHalfEvenZ_ge_floor (q : ℚ) : ⌊q⌋ ≤ roundHalfEvenZ q := by
  unfold roundHalfEvenZ
  split_ifs <;> omega

theorem roundHalfEvenZ_le_floor_add_one (q : ℚ) : roundHalfEvenZ q ≤ ⌊q⌋ + 1 := by
  unfold roundHalfEvenZ
  split_ifs <;> omega

theorem pyRound2_bounds {x : ℚ} (h0 : 0 < x) (h1 : x < 100) :
    0 ≤ pyRound2 x ∧ pyRound2 x ≤ 100 := by
  have hf0 : (0 : ℤ) ≤ ⌊x * 100⌋ := Int.floor_nonneg.mpr (by positivity)
  have hf1 : ⌊x * 100⌋ < 10000 := by
    have : x * 100 < 10000 := by linarith
    exact Int.floor_lt.mpr (by exact_mod_cast this)
  have hr0 : (0 : ℤ) ≤ roundHalfEvenZ (x * 100) :=
    le_trans hf0 (roundHalfEvenZ_ge_floor _)
  have hr1 : roundHalfEvenZ (x * 100) ≤ 10000 :=
    le_trans (roundHalfEvenZ_le_floor_add_one _) (by omega)
  constructor
  · unfold pyRound2
    positivity
  · unfold pyRound2
    rw [div_le_iff₀ (by norm_num)]
    calc ((roundHalfEvenZ (x * 100) : ℚ)) ≤ 10000 := by exact_mod_cast hr1
    _ = 100 * 100 := by norm_num

/-! ## C6 — default validity window -/

/-- C6 (counterexample): the claim says the assigned `valid_from` is the most
    recent Sunday on or before "today", so `valid_from = today` on a Sunday.
    Ordinal 14 (0001-01-14) is a Sunday (`weekday = 6`), yet the code assigns
    `valid_from = today - 7`, the Sunday one week earlier. -/
theorem c6_window_counterexample :
    pyWeekday 14 = 6 ∧ (defaultValidityWindow 14).1 = 7 ∧ (defaultValidityWindow 14).1 ≠ 14 := by
  refine ⟨by decide, by decide, by decide⟩

/-- C6 (amended): for every "today", the assigned `valid_from` is a Sunday,
    lies strictly before today and at most 7 days back — i.e. it is the most
    recent Sunday strictly before today — and `valid_to = valid_from + 6`.
    When today is not a Sunday this coincides with the most recent Sunday on
    or before today and the 7-day window contains today; when today is a
    Sunday, `valid_from = today - 7`. -/
theorem c6_window_amended (o : ℤ) :
    pyWeekday (defaultValidityWindow o).1 = 6 ∧
    (defaultValidityWindow o).1 < o ∧
    o - (defaultValidityWindow o).1 ≤ 7 ∧
    (defaultValidityWindow o).2 = (defaultValidityWindow o).1 + 6 ∧
    (∀ f : ℤ, pyWeekday f = 6 → f < o → f ≤ (defaultValidityWindow o).1) ∧
    (pyWeekday o ≠ 6 → (defaultValidityWindow o).1 ≤ o - 1 ∧ o ≤ (defaultValidityWindow o).2) ∧
    (pyWeekday o = 6 → (defaultValidityWindow o).1 = o - 7) := by
  refine ⟨?_, ?_, ?_, ?_, ?_, ?_, ?_⟩
  all_goals simp only [defaultValidityWindow, pyWeekday]
  all_goals intros
  all_goals omega

/-- C6 amended, witnessed at ordinal 15 (a Monday) and ordinal 14 (a Sunday):
    the Monday window starts the day before on Sunday ordinal 14 and contains
    the Monday; the Sunday window starts a full week earlier. -/
theorem c6_window_amended_witness :
    pyWeekday (defaultValidityWindow 15).1 = 6 ∧
    ((7 : ℤ) ≤ (defaultValidityWindow 15).1) ∧
    ((15 : ℤ) ≤ (defaultValidityWindow 15).2) ∧
    (defaultValidityWindow 14).1 = 14 - 7 := by
  refine ⟨(c6_window_amended 15).1,
    (c6_window_amended 15).2.2.2.2.1 7 (by decide) (by decide),
    ((c6_window_amended 15).2.2.2.2.2.1 (by decide)).2,
    (c6_window_amended 14).2.2.2.2.2.2 (by decide)⟩

/-! ## C2 — discount calculator contract -/

/-- C2 (counterexample): the claim says `discount(r, s)` is absent exactly
    when an input is absent, `r <= 0`, or `s >= r`. At `(r, s) = (1, 0)` none
    of those conditions holds, yet the code returns `None`, because
    `Decimal(0)` is falsy and `not sale_price` treats a zero sale price as
    missing. -/
theorem c2_discount_counterexample :
    calculate_discount (some 1) (some 0) = none ∧ ¬ ((1 : ℚ) ≤ 0) ∧ ¬ ((0 : ℚ) ≥ 1) := by
  refine ⟨?_, by norm_num, by norm_num⟩
  norm_num [calculate_discount, pyTruthyQ]

/-- C2 (amended): `discount(r, s)` is absent exactly when either input is
    absent, `r <= 0`, `s = 0` (a zero Decimal is falsy), or `s >= r`;
    otherwise — in particular whenever `0 < s < r` — it equals
    `round(((r - s) / r) * 100, 2)`, whose unrounded value lies strictly in
    `(0, 100)` and whose rounded value lies in `[0, 100]`; and
    `discount(5.99, 4.99) = 16.69`. -/
theorem c2_discount_amended (ro so : Option ℚ) :
    (calculate_discount ro so = none ↔
      ro = none ∨ so = none ∨ (∃ r, ro = some r ∧ r ≤ 0) ∨ so = some 0 ∨
        (∃ r s, ro = some r ∧ so = some s ∧ r ≤ s)) ∧
    (∀ r s, ro = some r → so = some s → 0 < s → s < r →
      calculate_discount ro so = some (pyRound2 ((r - s) / r * 100)) ∧
      0 < (r - s) / r * 100 ∧ (r - s) / r * 100 < 100 ∧
      0 ≤ pyRound2 ((r - s) / r * 100) ∧ pyRound2 ((r - s) / r * 100) ≤ 100) ∧
    calculate_discount (some (599/100)) (some (499/100)) = some (1669/100) := by
  have key : ∀ r s : ℚ, calculate_discount (some r) (some s) =
      if r ≤ 0 ∨ s = 0 ∨ r ≤ s then none else some (pyRound2 ((r - s) / r * 100)) := by
    intro r s
    simp only [calculate_discount, pyTruthyQ, decide_eq_true_eq, ne_eq, not_not]
    split_ifs <;> first
      | rfl
      | (exfalso
         simp_all only [not_or, not_true, not_false_eq_true]
         try casesm* _ ∧ _, _ ∨ _
         all_goals first | assumption | linarith)
  refine ⟨?_, ?_, ?_⟩
  · cases ro with
    | none => simp [calculate_discount, pyTruthyQ]
    | some r =>
        cases so with
        | none => simp [calculate_discount, pyTruthyQ]
        | some s =>
            rw [key r s]
            by_cases hc : r ≤ 0 ∨ s = 0 ∨ r ≤ s
            · rw [if_pos hc]
              constructor
              · intro _
                rcases hc with h | h | h
                · exact Or.inr (Or.inr (Or.inl ⟨r, rfl, h⟩))
                · exact Or.inr (Or.inr (Or.inr (Or.inl (by rw [h]))))
                · exact Or.inr (Or.inr (Or.inr (Or.inr ⟨r, s, rfl, rfl, h⟩)))
              · intro _
                rfl
            · rw [if_neg hc]
              push_neg at hc
              obtain ⟨h1, h2, h3⟩ := hc
              constructor
              · intro hcontra
                exact absurd hcontra (by simp)
              · rintro (h | h | ⟨r', hr', hle⟩ | h | ⟨r', s', hr', hs', hle⟩)
                · exact absurd h (by simp)
                · exact absurd h (by simp)
                · rw [Option.some_inj] at hr'
                  subst hr'
                  exact absurd hle (by linarith)
                · rw [Option.some_inj] at h
                  exact absurd h h2
                · rw [Option.some_inj] at hr' hs'
                  subst hr'
                  subst hs'
                  exact absurd hle (by linarith)
  · intro r s hro hso h0 hlt
    subst hro
    subst hso
    have hr0 : (0 : ℚ) < r := lt_trans h0 hlt
    have hcomp : calculate_discount (some r) (some s) =
        some (pyRound2 ((r - s) / r * 100)) := by
      rw [key r s, if_neg]
      push_neg
      exact ⟨by linarith, by linarith, by linarith⟩
    have hx0 : 0 < (r - s) / r * 100 := by
      have : 0 < (r - s) / r := div_pos (by linarith) hr0
      linarith
    have hx1 : (r - s) / r * 100 < 100 := by
      have h1 : (r - s) / r < 1 := (div_lt_one hr0).mpr (by linarith)
      linarith
    have hb := pyRound2_bounds hx0 hx1
    exact ⟨hcomp, hx0, hx1, hb.1, hb.2⟩
  · norm_num [calculate_discount, pyTruthyQ, pyRound2, roundHalfEvenZ]

/-- C2 amended, witnessed at `(r, s) = (2, 1)` (a 50% discount, present and
    in range) and at the absent case `(none, none)`. -/
theorem c2_discount_amended_witness :
    calculate_discount (some 2) (some 1) = some (pyRound2 ((2 - 1) / 2 * 100)) ∧
    0 ≤ pyRound2 ((2 - 1) / 2 * 100) ∧
    calculate_discount none none = none := by
  have h := (c2_discount_amended (some 2) (some 1)).2.1 2 1 rfl rfl (by norm_num) (by norm_num)
  refine ⟨h.1, h.2.2.2.1, ?_⟩
  exact (c2_discount_amended none none).1.mpr (Or.inl rfl)

/-! ## Scanner lemmas shared by the price parsers -/

theorem scanNumeral_eq_none_iff (l : List Nat) :
    scanNumeral l = none ↔ ∀ c ∈ l, isDigitCode c = false := by
  induction l with
  | nil => simp [scanNumeral]
  | cons c rest ih =>
      by_cases hd : isDigitCode c = true
      · simp [scanNumeral, hd]
      · have hd' : isDigitCode c = false := by
          cases h' : isDigitCode c
          · rfl
          · exact absurd h' hd
        simp [scanNumeral, hd', ih]

theorem numValue_nonneg (tok : List Nat) : 0 ≤ numValue tok := by
  unfold numValue
  split
  · positivity
  · positivity

theorem mem_dropWhile_of_not {p : Nat → Bool} {c : Nat} {l : List Nat}
    (hm : c ∈ l) (hc : p c = false) : c ∈ l.dropWhile p := by
  induction l with
  | nil => cases hm
  | cons a as ih =>
      by_cases ha : p a = true
      · simp only [List.dropWhile_cons, ha, if_true]
        rcases List.mem_cons.mp hm with rfl | hmem
        · rw [hc] at ha
          cases ha
        · exact ih hmem
      · simp only [List.dropWhile_cons, ha, if_false]
        exact hm

theorem mem_pyStrip_of_not_space {c : Nat} {l : List Nat}
    (hm : c ∈ l) (hc : pyIsSpace c = false) : c ∈ pyStrip l := by
  unfold pyStrip List.rdropWhile
  have h1 : c ∈ l.dropWhile pyIsSpace := mem_dropWhile_of_not hm hc
  have h2 : c ∈ (l.dropWhile pyIsSpace).reverse := List.mem_reverse.mpr h1
  exact List.mem_reverse.mpr (mem_dropWhile_of_not h2 hc)

theorem digit_not_space {c : Nat} (hd : isDigitCode c = true) : pyIsSpace c = false := by
  unfold isDigitCode at hd
  unfold pyIsSpace
  rw [decide_eq_true_eq] at hd
  rw [decide_eq_false_iff_not]
  omega

theorem digit_mem_pyCleanPrice {c : Nat} {s : List Nat}
    (hm : c ∈ s) (hd : isDigitCode c = true) : c ∈ pyCleanPrice s := by
  unfold pyCleanPrice
  apply mem_pyStrip_of_not_space ?_ (digit_not_space hd)
  apply List.mem_filter.mpr
  refine ⟨hm, ?_⟩
  rw [decide_eq_true_eq]
  unfold isDigitCode at hd
  rw [decide_eq_true_eq] at hd
  omega

theorem pyCleanPrice_subset {c : Nat} {s : List Nat} (hm : c ∈ pyCleanPrice s) : c ∈ s := by
  unfold pyCleanPrice pyStrip List.rdropWhile at hm
  have h1 : c ∈ ((s.filter (fun c => decide (¬(c = 36 ∨ c = 44)))).dropWhile pyIsSpace).reverse :=
    (List.dropWhile_suffix pyIsSpace).sublist.subset (List.mem_reverse.mp hm)
  have h2 : c ∈ s.filter (fun c => decide (¬(c = 36 ∨ c = 44))) :=
    (List.dropWhile_suffix pyIsSpace).sublist.subset (List.mem_reverse.mp h1)
  exact (List.mem_filter.mp h2).1

/-! ## C10 — totality and safety of the Hmart price parser -/

/-- C10: `HmartScraper.parse_price` is total (it is a Lean function, hence
    terminates and raises nothing on every input); it returns `None` exactly
    when the input contains no digit — in particular on the empty string —
    and every returned value is non-negative. -/
theorem c10_parse_price_total (s : List Nat) :
    (HmartScraper.parse_price s = none ↔ ∀ c ∈ s, isDigitCode c = false) ∧
    (∀ v, HmartScraper.parse_price s = some v → 0 ≤ v) := by
  constructor
  · unfold HmartScraper.parse_price
    by_cases hnil : s = []
    · subst hnil
      simp
    · rw [if_neg hnil]
      cases hscan : scanNumeral (pyCleanPrice s) with
      | none =>
          constructor
          · intro _ c hc
            cases hd : isDigitCode c with
            | false => rfl
            | true =>
                have hmem := digit_mem_pyCleanPrice hc hd
                have := (scanNumeral_eq_none_iff _).mp hscan c hmem
                rw [hd] at this
                cases this
          · intro _
            rfl
      | some t =>
          constructor
          · intro hcontra
            cases hcontra
          · intro hall
            have hnone : scanNumeral (pyCleanPrice s) = none := by
              apply (scanNumeral_eq_none_iff _).mpr
              intro c hc
              exact hall c (pyCleanPrice_subset hc)
            rw [hnone] at hscan
            cases hscan
  · intro v hv
    unfold HmartScraper.parse_price at hv
    by_cases hnil : s = []
    · rw [if_pos hnil] at hv
      cases hv
    · rw [if_neg hnil] at hv
      cases hscan : scanNumeral (pyCleanPrice s) with
      | none =>
          rw [hscan] at hv
          cases hv
      | some t =>
          rw [hscan] at hv
          cases hv
          exact numValue_nonneg _

/-- C10, witnessed: `"$5.99"` parses to the non-negative value `5.99`, and
    `"abc"` (no numeral) parses to `None`. -/
theorem c10_parse_price_total_witness :
    HmartScraper.parse_price (codes "abc") = none ∧
    (0 : ℚ) ≤ 599/100 := by
  constructor
  · exact (c10_parse_price_total (codes "abc")).1.mpr (by decide)
  · have hp : HmartScraper.parse_price (codes "$5.99") = some (599/100) := by
      have h : codes "$5.99" = [36, 53, 46, 57, 57] := by decide
      rw [h]
      norm_num [HmartScraper.parse_price, pyCleanPrice, pyStrip, scanNumeral, numTail,
        numValue, digitsToNat, pyIsSpace, isDigitCode]
      exact fun hcontra => List.noConfusion hcontra
    exact (c10_parse_price_total (codes "$5.99")).2 (599/100) hp

/-! ## C7 — Stew Leonard's cents-format price correction -/

/-- C7 (counterexample): the claim says the division by 100 happens exactly
    when the value is `>= 100` and the *fragment* has no explicit decimal
    point. The fragment `".200"` contains a decimal point, so the claim says
    its first numeral `200` is returned unchanged; but the code tests
    `'.' not in match.group(1)` — the matched numeral `"200"` — and divides,
    returning `2`. -/
theorem c7_cents_counterexample :
    StewLeonardsScraper.parse_price (codes ".200") = some 2 ∧
    46 ∈ codes ".200" ∧
    StewLeonardsScraper.parse_price (codes ".200") ≠ some 200 := by
  have h : scanNumeral (pyCleanPrice (codes ".200")) = some ([50, 48, 48], []) := by decide
  have hv : numValue [50, 48, 48] = 200 := by
    norm_num [numValue, digitsToNat, List.takeWhile, List.dropWhile, isDigitCode]
  have hp : StewLeonardsScraper.parse_price (codes ".200") = some 2 := by
    unfold StewLeonardsScraper.parse_price
    rw [if_neg (by decide)]
    rw [h]
    dsimp only
    rw [if_pos ⟨by rw [hv]; norm_num, by decide⟩]
    rw [hv]
    norm_num
  refine ⟨hp, by decide, ?_⟩
  rw [hp]
  simp only [ne_eq, Option.some_inj]
  norm_num

/-- C7 (amended): after stripping `$` and `,`, the first extracted numeral is
    divided by 100 exactly when its value is `>= 100` and the *matched
    numeral itself* has no explicit decimal point; a numeral with a decimal
    point, or a bare value below 100, is returned unchanged. -/
theorem c7_cents_amended (s : List Nat) (t : List Nat × List Nat)
    (hne : s ≠ []) (hscan : scanNumeral (pyCleanPrice s) = some t) :
    (100 ≤ numValue t.1 ∧ 46 ∉ t.1 →
      StewLeonardsScraper.parse_price s = some (numValue t.1 / 100)) ∧
    (numValue t.1 < 100 ∨ 46 ∈ t.1 →
      StewLeonardsScraper.parse_price s = some (numValue t.1)) := by
  unfold StewLeonardsScraper.parse_price
  rw [if_neg hne, hscan]
  dsimp only
  constructor
  · intro hc
    rw [if_pos ⟨hc.1, hc.2⟩]
  · intro hc
    rw [if_neg]
    intro hcontra
    rcases hc with hlt | hmem
    · exact absurd hcontra.1 (by linarith)
    · exact hcontra.2 hmem

/-- C7 amended, witnessed on the scenario of the claim: `"$799"` (no decimal
    point, value 799 ≥ 100) parses to `7.99`, while `"$7.99"` (decimal point
    in the numeral) is returned unchanged. -/
theorem c7_cents_amended_witness :
    StewLeonardsScraper.parse_price (codes "$799") = some (799/100) ∧
    StewLeonardsScraper.parse_price (codes "$7.99") = some (799/100) := by
  have h1 : scanNumeral (pyCleanPrice (codes "$799")) = some ([55, 57, 57], []) := by decide
  have h2 : scanNumeral (pyCleanPrice (codes "$7.99")) = some ([55, 46, 57, 57], []) := by decide
  have hv1 : numValue [55, 57, 57] = 799 := by
    norm_num [numValue, digitsToNat, List.takeWhile, List.dropWhile, isDigitCode]
  have hv2 : numValue [55, 46, 57, 57] = 799/100 := by
    norm_num [numValue, digitsToNat, List.takeWhile, List.dropWhile, isDigitCode]
  constructor
  · have happ := (c7_cents_amended (codes "$799") ([55, 57, 57], []) (by decide) h1).1
      ⟨by rw [hv1]; norm_num, by decide⟩
    rw [happ, hv1]
  · have happ := (c7_cents_amended (codes "$7.99") ([55, 46, 57, 57], []) (by decide) h2).2
      (Or.inr (by decide))
    rw [happ, hv2]

/-! ## C5 — ambiguous-pair swap law -/

/-- C5 (counterexample): the claim quantifies over every ambiguous fragment
    pair with raw values `(a, b)`, `a < b`. For the pair `("0", "1")` —
    values `(0, 1)` — the classify loop skips the zero-valued fragment
    (`if not price_val: continue`, `Decimal(0)` is falsy), so the resolved
    state is `(None, 1)`, not the claimed `(regular, sale) = (1, 0)`. -/
theorem c5_swap_counterexample :
    HmartScraper.parse_price (codes "0") = some 0 ∧
    HmartScraper.parse_price (codes "1") = some 1 ∧
    fragIsRegular ⟨codes "0", codes "", codes ""⟩ = false ∧
    fragIsSale ⟨codes "0", codes "", codes ""⟩ = false ∧
    fragIsRegular ⟨codes "1", codes "", codes ""⟩ = false ∧
    fragIsSale ⟨codes "1", codes "", codes ""⟩ = false ∧
    ((0 : ℚ) < 1) ∧
    List.foldl stepPrice (none, none)
      [⟨codes "0", codes "", codes ""⟩, ⟨codes "1", codes "", codes ""⟩] = (none, some 1) ∧
    ((none, some (1 : ℚ)) : Option ℚ × Option ℚ) ≠ (some 1, some 0) := by
  have hscan0 : scanNumeral (pyCleanPrice (codes "0")) = some ([48], []) := by decide
  have hscan1 : scanNumeral (pyCleanPrice (codes "1")) = some ([49], []) := by decide
  have hp0 : HmartScraper.parse_price (codes "0") = some 0 := by
    unfold HmartScraper.parse_price
    rw [if_neg (by decide), hscan0]
    norm_num [numValue, digitsToNat, List.takeWhile, List.dropWhile, isDigitCode]
  have hp1 : HmartScraper.parse_price (codes "1") = some 1 := by
    unfold HmartScraper.parse_price
    rw [if_neg (by decide), hscan1]
    norm_num [numValue, digitsToNat, List.takeWhile, List.dropWhile, isDigitCode]
  have hstep0 : stepPrice (none, none) ⟨codes "0", codes "", codes ""⟩ = (none, none) := by
    unfold stepPrice
    rw [hp0]
    dsimp only
    rw [if_pos rfl]
  have hstep1 : stepPrice (none, none) ⟨codes "1", codes "", codes ""⟩ = (none, some 1) := by
    unfold stepPrice
    rw [hp1]
    dsimp only
    rw [if_neg (by norm_num)]
    rw [if_neg (by simp [pyTruthyQ]; decide), if_neg (by simp [pyTruthyQ]; decide),
      if_pos (by constructor <;> simp <;> decide)]
    rw [if_pos (by simp [pyTruthyQ])]
  refine ⟨hp0, hp1, by decide, by decide, by decide, by decide, by norm_num, ?_, by simp⟩
  simp only [List.foldl, hstep0, hstep1]

/-- C5 (amended): for every two ambiguous price fragments with truthy raw
    values `(a, b)`, `0 < a < b`, processed from an empty price state in
    either arrival order, the classify loop resolves
    `(regular, sale) = (b, a)` — the larger value becomes the regular price. -/
theorem c5_swap_amended (a b : ℚ) (f1 f2 : PriceFrag)
    (h1 : HmartScraper.parse_price f1.text = some a)
    (h2 : HmartScraper.parse_price f2.text = some b)
    (hr1 : fragIsRegular f1 = false) (hs1 : fragIsSale f1 = false)
    (hr2 : fragIsRegular f2 = false) (hs2 : fragIsSale f2 = false)
    (h0 : 0 < a) (hab : a < b) :
    List.foldl stepPrice (none, none) [f1, f2] = (some b, some a) ∧
    List.foldl stepPrice (none, none) [f2, f1] = (some b, some a) := by
  have ha0 : a ≠ 0 := ne_of_gt h0
  have hb0 : b ≠ 0 := ne_of_gt (lt_trans h0 hab)
  have hstepA : stepPrice (none, none) f1 = (none, some a) := by
    unfold stepPrice
    rw [h1]
    dsimp only
    rw [if_neg ha0]
    simp [hr1, hs1, pyTruthyQ]
  have hstepB : stepPrice (none, none) f2 = (none, some b) := by
    unfold stepPrice
    rw [h2]
    dsimp only
    rw [if_neg hb0]
    simp [hr2, hs2, pyTruthyQ]
  have hstepAB : stepPrice (none, some a) f2 = (some b, some a) := by
    unfold stepPrice
    rw [h2]
    dsimp only
    simp [hr2, hs2, pyTruthyQ, hb0, ha0, hab]
  have hnba : ¬ b < a := not_lt.mpr (le_of_lt hab)
  have hstepBA : stepPrice (none, some b) f1 = (some b, some a) := by
    unfold stepPrice
    rw [h1]
    dsimp only
    simp [hr1, hs1, pyTruthyQ, ha0, hb0, hnba]
  constructor
  · simp only [List.foldl, hstepA, hstepAB]
  · simp only [List.foldl, hstepB, hstepBA]

/-- C5 amended, witnessed on the ambiguous pair `("3.99", "5.99")` in both
    arrival orders: the larger value 5.99 resolves as regular, 3.99 as sale. -/
theorem c5_swap_amended_witness :
    List.foldl stepPrice (none, none)
      [⟨codes "3.99", codes "", codes ""⟩, ⟨codes "5.99", codes "", codes ""⟩] =
        (some (599/100), some (399/100)) ∧
    List.foldl stepPrice (none, none)
      [⟨codes "5.99", codes "", codes ""⟩, ⟨codes "3.99", codes "", codes ""⟩] =
        (some (599/100), some (399/100)) := by
  have hp1 : HmartScraper.parse_price (codes "3.99") = some (399/100) := by
    have hscan : scanNumeral (pyCleanPrice (codes "3.99")) = some ([51, 46, 57, 57], []) := by
      decide
    unfold HmartScraper.parse_price
    rw [if_neg (by decide), hscan]
    norm_num [numValue, digitsToNat, List.takeWhile, List.dropWhile, isDigitCode]
  have hp2 : HmartScraper.parse_price (codes "5.99") = some (599/100) := by
    have hscan : scanNumeral (pyCleanPrice (codes "5.99")) = some ([53, 46, 57, 57], []) := by
      decide
    unfold HmartScraper.parse_price
    rw [if_neg (by decide), hscan]
    norm_num [numValue, digitsToNat, List.takeWhile, List.dropWhile, isDigitCode]
  exact c5_swap_amended (399/100) (599/100)
    ⟨codes "3.99", codes "", codes ""⟩ ⟨codes "5.99", codes "", codes ""⟩
    hp1 hp2 (by decide) (by decide) (by decide) (by decide) (by norm_num) (by norm_num)

/-! ## C4 — final price-consistency pass -/

theorem parse_price_nonneg {s : List Nat} {v : ℚ}
    (h : HmartScraper.parse_price s = some v) : 0 ≤ v := by
  unfold HmartScraper.parse_price at h
  by_cases hnil : s = []
  · rw [if_pos hnil] at h
    cases h
  · rw [if_neg hnil] at h
    cases hscan : scanNumeral (pyCleanPrice s) with
    | none =>
        rw [hscan] at h
        cases h
    | some t =>
        rw [hscan] at h
        simp only [Option.some.injEq] at h
        rw [← h]
        exact numValue_nonneg _

theorem foldl_preserve {α β : Type} (P : β → Prop) (f : β → α → β)
    (hf : ∀ b a, P b → P (f b a)) :
    ∀ (l : List α) (b : β), P b → P (l.foldl f b) := by
  intro l
  induction l with
  | nil =>
      intro b hb
      exact hb
  | cons x xs ih =>
      intro b hb
      exact ih _ (hf b x hb)

theorem stepPrice_pos (st1 st2 : Option ℚ) (f : PriceFrag)
    (hr : ∀ r, st1 = some r → 0 < r) (hs : ∀ s, st2 = some s → 0 < s) :
    (∀ r, (stepPrice (st1, st2) f).1 = some r → 0 < r) ∧
    (∀ s, (stepPrice (st1, st2) f).2 = some s → 0 < s) := by
  unfold stepPrice
  cases hp : HmartScraper.parse_price f.text with
  | none => exact ⟨hr, hs⟩
  | some v =>
      have hv0 : 0 ≤ v := parse_price_nonneg hp
      dsimp only
      by_cases hz : v = 0
      · rw [if_pos hz]
        exact ⟨hr, hs⟩
      · have hvpos : 0 < v := lt_of_le_of_ne hv0 (Ne.symm hz)
        have hv' : ∀ x : ℚ, some v = some x → 0 < x := by
          intro x hx
          cases hx
          exact hvpos
        rw [if_neg hz]
        by_cases c1 : fragIsRegular f = true ∧ ¬ pyTruthyQ st1 = true
        · rw [if_pos c1]
          exact ⟨hv', hs⟩
        · rw [if_neg c1]
          by_cases c2 : fragIsSale f = true ∧ ¬ pyTruthyQ st2 = true
          · rw [if_pos c2]
            exact ⟨hr, hv'⟩
          · rw [if_neg c2]
            by_cases c3 : ¬ fragIsRegular f = true ∧ ¬ fragIsSale f = true
            · rw [if_pos c3]
              by_cases c4 : ¬ pyTruthyQ st2 = true
              · rw [if_pos c4]
                exact ⟨hr, hv'⟩
              · rw [if_neg c4]
                by_cases c5 : ¬ pyTruthyQ st1 = true
                · rw [if_pos c5]
                  cases st2 with
                  | none => exact ⟨hr, hs⟩
                  | some s2 =>
                      have hs2 : 0 < s2 := hs s2 rfl
                      have hs' : ∀ x : ℚ, some s2 = some x → 0 < x := by
                        intro x hx
                        cases hx
                        exact hs2
                      dsimp only
                      by_cases c6 : s2 < v
                      · rw [if_pos c6]
                        exact ⟨hv', hs'⟩
                      · rw [if_neg c6]
                        exact ⟨hs', hv'⟩
                · rw [if_neg c5]
                  exact ⟨hr, hs⟩
            · rw [if_neg c3]
              exact ⟨hr, hs⟩

theorem strikethroughPass_pos (texts : List (List Nat)) :
    ∀ r, strikethroughPass texts = some r → 0 < r := by
  unfold strikethroughPass
  apply foldl_preserve (fun rp : Option ℚ => ∀ r, rp = some r → 0 < r)
  · intro rp t hrp
    cases hp : HmartScraper.parse_price t with
    | none => exact hrp
    | some v =>
        dsimp only
        split_ifs with c
        · intro x hx
          cases hx
          exact lt_of_le_of_ne (parse_price_nonneg hp) (Ne.symm c.1)
        · exact hrp
  · intro r hr
    cases hr

theorem rescanLowerPrice_nonneg {t : List Nat} {r v : ℚ}
    (h : rescanLowerPrice t r = some v) : 0 ≤ v := by
  unfold rescanLowerPrice at h
  have hmem := List.mem_of_find?_eq_some h
  obtain ⟨tok, _, htok⟩ := List.mem_map.mp hmem
  rw [← htok]
  exact numValue_nonneg tok

theorem resolvePrices_inv (it : Item) :
    (∀ r, (resolvePrices it).1 = some r → 0 < r) ∧
    (∀ s, (resolvePrices it).2 = some s → 0 ≤ s) := by
  unfold resolvePrices
  have hfold := foldl_preserve
    (fun st : Option ℚ × Option ℚ =>
      (∀ r, st.1 = some r → 0 < r) ∧ (∀ s, st.2 = some s → 0 < s))
    stepPrice
    (by
      intro st f hst
      obtain ⟨s1, s2⟩ := st
      exact stepPrice_pos s1 s2 f hst.1 hst.2)
    it.priceFrags
    (strikethroughPass it.strikethroughTexts, none)
    ⟨by
      intro r hr
      exact strikethroughPass_pos _ r hr,
     by
      intro s hs
      cases hs⟩
  set st1 := it.priceFrags.foldl stepPrice (strikethroughPass it.strikethroughTexts, none)
    with hdef
  clear_value st1
  obtain ⟨a, b⟩ := st1
  obtain ⟨hA, hB⟩ := hfold
  dsimp only at hA hB
  have hres : (∀ r, (rescanStage it.fullText (a, b)).1 = some r → 0 < r) ∧
      (∀ s, (rescanStage it.fullText (a, b)).2 = some s → 0 ≤ s) := by
    unfold rescanStage
    dsimp only
    split_ifs with c
    · cases a with
      | none => exact ⟨hA, fun s hs => le_of_lt (hB s hs)⟩
      | some ra =>
          dsimp only
          cases hr2 : rescanLowerPrice it.fullText ra with
          | none => exact ⟨hA, fun s hs => le_of_lt (hB s hs)⟩
          | some v =>
              refine ⟨hA, ?_⟩
              intro s hs
              dsimp only at hs
              cases hs
              exact rescanLowerPrice_nonneg hr2
    · exact ⟨hA, fun s hs => le_of_lt (hB s hs)⟩
  set st2 := rescanStage it.fullText (a, b) with hdef2
  clear_value st2
  obtain ⟨a2, b2⟩ := st2
  obtain ⟨hA2, hB2⟩ := hres
  dsimp only at hA2 hB2
  unfold fallbackStage
  dsimp only
  split_ifs with c
  · cases hmt : it.mainPriceText with
    | none => exact ⟨hA2, hB2⟩
    | some tx =>
        refine ⟨hA2, ?_⟩
        intro s hs
        dsimp only at hs
        exact parse_price_nonneg hs
  · exact ⟨hA2, hB2⟩

theorem fixPriceOrder_some {r s : ℚ} (hr : r ≠ 0) (hs : s ≠ 0) :
    fixPriceOrder (some r) (some s) =
      if r < s then (some s, some r)
      else if s = r then (none, some s)
      else (some r, some s) := by
  unfold fixPriceOrder
  rw [if_pos ⟨by simp [pyTruthyQ, hr], by simp [pyTruthyQ, hs]⟩]

theorem fixPriceOrder_not_truthy {rp sp : Option ℚ}
    (h : ¬ (pyTruthyQ rp = true ∧ pyTruthyQ sp = true)) :
    fixPriceOrder rp sp = (rp, sp) := by
  unfold fixPriceOrder
  rw [if_neg h]

/-- C4: for every item, the final consistency pass applied to the resolved
    price pair swaps the prices when `sale > regular`, discards the regular
    price when they are equal, and consequently every pair it emits with both
    prices present has `sale_price < regular_price` (hence also `<=`). -/
theorem c4_price_consistency (it : Item) (rp sp : Option ℚ)
    (h : resolvePrices it = (rp, sp)) :
    (∀ r s, rp = some r → sp = some s → r < s → fixPriceOrder rp sp = (some s, some r)) ∧
    (∀ r s, rp = some r → sp = some s → s = r → fixPriceOrder rp sp = (none, some s)) ∧
    (∀ r s, (fixPriceOrder rp sp).1 = some r → (fixPriceOrder rp sp).2 = some s →
      s < r ∧ s ≤ r) := by
  have hinv := resolvePrices_inv it
  rw [h] at hinv
  obtain ⟨hrpos, hsnn⟩ := hinv
  dsimp only at hrpos hsnn
  refine ⟨?_, ?_, ?_⟩
  · intro r s hrr hss hlt
    subst hrr
    subst hss
    have hr0 : 0 < r := hrpos r rfl
    have hs0 : 0 < s := lt_trans hr0 hlt
    rw [fixPriceOrder_some (ne_of_gt hr0) (ne_of_gt hs0), if_pos hlt]
  · intro r s hrr hss heq
    subst hrr
    subst hss
    have hr0 : 0 < r := hrpos r rfl
    have hs0 : 0 < s := heq ▸ hr0
    rw [fixPriceOrder_some (ne_of_gt hr0) (ne_of_gt hs0), if_neg (by rw [heq]; exact lt_irrefl r),
      if_pos heq]
  · intro r s hfr hfs
    cases rp with
    | none =>
        rw [fixPriceOrder_not_truthy (by simp [pyTruthyQ])] at hfr
        cases hfr
    | some r0 =>
        cases sp with
        | none =>
            rw [fixPriceOrder_not_truthy (by simp [pyTruthyQ])] at hfs
            cases hfs
        | some s0 =>
            have hr0 : 0 < r0 := hrpos r0 rfl
            have hs0' : 0 ≤ s0 := hsnn s0 rfl
            by_cases hz : s0 = 0
            · subst hz
              rw [fixPriceOrder_not_truthy (by simp [pyTruthyQ])] at hfr hfs
              dsimp only at hfr hfs
              cases hfr
              cases hfs
              exact ⟨hr0, le_of_lt hr0⟩
            · have hs0 : 0 < s0 := lt_of_le_of_ne hs0' (Ne.symm hz)
              rw [fixPriceOrder_some (ne_of_gt hr0) hz] at hfr hfs
              by_cases hlt : r0 < s0
              · rw [if_pos hlt] at hfr hfs
                dsimp only at hfr hfs
                cases hfr
                cases hfs
                exact ⟨hlt, le_of_lt hlt⟩
              · rw [if_neg hlt] at hfr hfs
                by_cases heq : s0 = r0
                · rw [if_pos heq] at hfr
                  dsimp only at hfr
                  cases hfr
                · rw [if_neg heq] at hfr hfs
                  dsimp only at hfr hfs
                  cases hfr
                  cases hfs
                  have hlt2 := lt_of_le_of_ne (not_lt.mp hlt) heq
                  exact ⟨hlt2, le_of_lt hlt2⟩

/-- C4, witnessed: an item whose strikethrough element reads `"$2.99"` and
    whose single ambiguous price element reads `"5.99"` resolves to
    `(regular, sale) = (2.99, 5.99)`; the consistency pass swaps the inverted
    pair to `(5.99, 2.99)`. -/
theorem c4_price_consistency_witness :
    fixPriceOrder (some (299/100)) (some (599/100)) = (some (599/100), some (299/100)) := by
  have hpA : HmartScraper.parse_price (codes "$2.99") = some (299/100) := by
    have hscan : scanNumeral (pyCleanPrice (codes "$2.99")) = some ([50, 46, 57, 57], []) := by
      decide
    unfold HmartScraper.parse_price
    rw [if_neg (by decide), hscan]
    norm_num [numValue, digitsToNat, List.takeWhile, List.dropWhile, isDigitCode]
  have hpB : HmartScraper.parse_price (codes "5.99") = some (599/100) := by
    have hscan : scanNumeral (pyCleanPrice (codes "5.99")) = some ([53, 46, 57, 57], []) := by
      decide
    unfold HmartScraper.parse_price
    rw [if_neg (by decide), hscan]
    norm_num [numValue, digitsToNat, List.takeWhile, List.dropWhile, isDigitCode]
  have hfr : fragIsRegular ⟨codes "5.99", codes "", codes ""⟩ = false := by decide
  have hfs : fragIsSale ⟨codes "5.99", codes "", codes ""⟩ = false := by decide
  have hstrike : strikethroughPass [codes "$2.99"] = some (299/100) := by
    unfold strikethroughPass
    simp only [List.foldl]
    rw [hpA]
    dsimp only
    rw [if_pos ⟨by norm_num, by simp [pyTruthyQ]⟩]
  have hfold : List.foldl stepPrice ((some (299/100) : Option ℚ), (none : Option ℚ))
      [⟨codes "5.99", codes "", codes ""⟩] = (some (299/100), some (599/100)) := by
    simp only [List.foldl]
    unfold stepPrice
    rw [hpB]
    dsimp only
    simp [hfr, hfs, pyTruthyQ]
  have hresolve : resolvePrices
      ⟨[codes "$2.99"], [⟨codes "5.99", codes "", codes ""⟩], codes "", none⟩ =
      (some (299/100), some (599/100)) := by
    unfold resolvePrices
    dsimp only
    rw [hstrike, hfold]
    unfold rescanStage
    rw [if_neg (by simp [pyTruthyQ])]
    unfold fallbackStage
    rw [if_neg (by simp [pyTruthyQ])]
  exact (c4_price_consistency _ _ _ hresolve).1 (299/100) (599/100) rfl rfl (by norm_num)

/-! ## C3 — deterministic, normalization-invariant identity -/

theorem pyLowerCode_idem (c : Nat) : pyLowerCode (pyLowerCode c) = pyLowerCode c := by
  unfold pyLowerCode
  split_ifs <;> omega

theorem pyIsSpace_pyLowerCode (c : Nat) : pyIsSpace (pyLowerCode c) = pyIsSpace c := by
  unfold pyLowerCode pyIsSpace
  split_ifs with h
  · exact decide_eq_decide.mpr (by omega)
  · rfl

theorem dropWhile_map_lower (l : List Nat) :
    (l.map pyLowerCode).dropWhile pyIsSpace = (l.dropWhile pyIsSpace).map pyLowerCode := by
  induction l with
  | nil => rfl
  | cons c cs ih =>
      simp only [List.map_cons, List.dropWhile_cons, pyIsSpace_pyLowerCode]
      split_ifs with h
      · exact ih
      · rfl

theorem rdropWhile_map_lower (l : List Nat) :
    List.rdropWhile pyIsSpace (l.map pyLowerCode) =
      (List.rdropWhile pyIsSpace l).map pyLowerCode := by
  unfold List.rdropWhile
  rw [← List.map_reverse, dropWhile_map_lower, List.map_reverse]

theorem pyStrip_pyLower (l : List Nat) : pyStrip (pyLower l) = pyLower (pyStrip l) := by
  unfold pyStrip pyLower
  rw [dropWhile_map_lower, rdropWhile_map_lower]

theorem dropWhile_head_false {p : Nat → Bool} {l : List Nat} {c : Nat} {t : List Nat}
    (h : l.dropWhile p = c :: t) : p c = false := by
  induction l with
  | nil => cases h
  | cons a as ih =>
      rw [List.dropWhile_cons] at h
      split_ifs at h with ha
      · exact ih h
      · injection h with h1 h2
        subst h1
        cases hpc : p a with
        | false => rfl
        | true => exact absurd hpc ha

theorem pyStrip_idem (l : List Nat) : pyStrip (pyStrip l) = pyStrip l := by
  unfold pyStrip
  have h1 : (List.rdropWhile pyIsSpace (l.dropWhile pyIsSpace)).dropWhile pyIsSpace =
      List.rdropWhile pyIsSpace (l.dropWhile pyIsSpace) := by
    cases hcase : List.rdropWhile pyIsSpace (l.dropWhile pyIsSpace) with
    | nil => rfl
    | cons c t =>
        have hpre : List.rdropWhile pyIsSpace (l.dropWhile pyIsSpace) <+:
            l.dropWhile pyIsSpace := List.rdropWhile_prefix _ _
        rw [hcase] at hpre
        obtain ⟨k, hk⟩ := hpre
        have hc : pyIsSpace c = false :=
          dropWhile_head_false (l := l) (p := pyIsSpace) hk.symm
        rw [List.dropWhile_cons, hc]
        simp
  rw [h1, List.rdropWhile_idempotent]

theorem pyNorm_idem (l : List Nat) :
    pyLower (pyStrip (pyLower (pyStrip l))) = pyLower (pyStrip l) := by
  rw [pyStrip_pyLower, pyStrip_idem]
  unfold pyLower
  rw [List.map_map]
  congr 1
  funext c
  exact pyLowerCode_idem c

theorem uuidStringCodes_length (bs : List Nat) : (uuidStringCodes bs).length = 36 := by
  simp [uuidStringCodes, hex2]

/-- C3: `generate_grocery_deal_uuid` is a pure function (identical logical
    inputs always produce the identical identifier), it is invariant under
    pre-normalizing the product name with `strip().lower()`, and its output
    always has the fixed UUID string length of 36 characters. -/
theorem c3_identity_normalization (name : List Nat) (store_id : Int) (vf vt : PyDate) :
    generate_grocery_deal_uuid name store_id vf vt =
      generate_grocery_deal_uuid (pyLower (pyStrip name)) store_id vf vt ∧
    (generate_grocery_deal_uuid name store_id vf vt).length = 36 := by
  constructor
  · unfold generate_grocery_deal_uuid
    rw [pyNorm_idem]
  · unfold generate_grocery_deal_uuid
    exact uuidStringCodes_length _

/-! ## C9 — discount consistency at durable creation -/

/-- C9 (counterexample): `GroceryService.create` recomputes the discount for
    a staged deal with `regular_price = 4`, `sale_price = 5` and no discount,
    with no guard on the price order, and stores `-25` — a negative value
    outside `[0, 100)`, inconsistent with the §4.3 contract (under which the
    discount would be absent, since `sale >= regular`). -/
theorem c9_discount_create_counterexample :
    ((GroceryService.create emptyDB
        { id := none, uuid := some (codes "u-9"), store_id := 1,
          product_name := codes "x", category_id := none,
          regular_price := some 4, sale_price := some 5, unit := none,
          quantity := none, discount_percentage := none,
          valid_from := ⟨2025, 1, 1⟩, valid_to := ⟨2025, 1, 7⟩,
          source_url := none, image_url := none,
          description := none }).1.map (fun x => x.discount_percentage)) =
      some (some (-25)) ∧
    ((-25 : ℚ) < 0) ∧
    calculate_discount (some 4) (some 5) = none := by
  refine ⟨?_, by norm_num, ?_⟩
  · unfold GroceryService.create applyUuid applyDiscountRecompute
    rw [if_pos (show pyTruthyStr (some (codes "u-9")) = true by decide)]
    rw [if_pos ⟨rfl, by simp [pyTruthyQ], by simp [pyTruthyQ]⟩]
    dsimp only
    unfold dbInsert emptyDB
    rw [if_neg (by simp)]
    dsimp only [Option.map]
    congr 2
    norm_num [pyRound2, roundHalfEvenZ]
  · norm_num [calculate_discount, pyTruthyQ]

/-- C9 (amended): at the create/persist boundary, an extraction-supplied
    discount value is never overridden; when the discount is absent and both
    prices are truthy it is recomputed as `round(((r - s) / r) * 100, 2)` with
    no guard on the price order, so the stored value lies in `[0, 100]`
    whenever `0 < s < r` but can be negative or above 100 for inconsistent
    staged price pairs; when either price is falsy an absent discount stays
    absent; and the row inserted into the store carries exactly the
    recomputed deal's discount. -/
theorem c9_discount_create_amended (d : GroceryDeal) :
    (∀ q, d.discount_percentage = some q →
      (applyDiscountRecompute d).discount_percentage = some q) ∧
    (∀ r s, d.discount_percentage = none → d.regular_price = some r →
      d.sale_price = some s → r ≠ 0 → s ≠ 0 →
      (applyDiscountRecompute d).discount_percentage =
        some (pyRound2 ((r - s) / r * 100))) ∧
    (d.discount_percentage = none →
      (pyTruthyQ d.regular_price = false ∨ pyTruthyQ d.sale_price = false) →
      (applyDiscountRecompute d).discount_percentage = none) ∧
    (∀ r s : ℚ, 0 < s → s < r →
      0 ≤ pyRound2 ((r - s) / r * 100) ∧ pyRound2 ((r - s) / r * 100) ≤ 100) ∧
    ((GroceryService.create emptyDB d).1.map (fun x => x.discount_percentage) =
      some ((applyDiscountRecompute (applyUuid d)).discount_percentage)) := by
  refine ⟨?_, ?_, ?_, ?_, ?_⟩
  · intro q hq
    unfold applyDiscountRecompute
    rw [if_neg (by rw [hq]; rintro ⟨hcontra, -⟩; cases hcontra)]
    exact hq
  · intro r s hd hr hs hr0 hs0
    unfold applyDiscountRecompute
    rw [if_pos ⟨hd, by rw [hr]; simp [pyTruthyQ, hr0], by rw [hs]; simp [pyTruthyQ, hs0]⟩]
    rw [hr, hs]
  · intro hd hf
    unfold applyDiscountRecompute
    rw [if_neg]
    · exact hd
    · rintro ⟨-, h1, h2⟩
      rcases hf with hf | hf
      · rw [hf] at h1
        exact Bool.noConfusion h1
      · rw [hf] at h2
        exact Bool.noConfusion h2
  · intro r s h0 hlt
    have hr0 : (0 : ℚ) < r := lt_trans h0 hlt
    have hx0 : 0 < (r - s) / r * 100 := by
      have : 0 < (r - s) / r := div_pos (by linarith) hr0
      linarith
    have hx1 : (r - s) / r * 100 < 100 := by
      have h1 : (r - s) / r < 1 := (div_lt_one hr0).mpr (by linarith)
      linarith
    exact pyRound2_bounds hx0 hx1
  · unfold GroceryService.create dbInsert emptyDB
    dsimp only
    simp only [List.any_nil, Bool.false_eq_true, if_false]
    rfl

/-- C9 amended, witnessed: a deal carrying an extraction-supplied discount of
    10 keeps it unchanged through the create-boundary recompute, and a
    consistent pair `(r, s) = (2, 1)` yields an in-range rounded discount. -/
theorem c9_discount_create_amended_witness :
    (applyDiscountRecompute
      { id := none, uuid := none, store_id := 1, product_name := codes "y",
        category_id := none, regular_price := some 4, sale_price := some 5,
        unit := none, quantity := none, discount_percentage := some 10,
        valid_from := ⟨2025, 1, 1⟩, valid_to := ⟨2025, 1, 7⟩,
        source_url := none, image_url := none,
        description := none }).discount_percentage = some 10 ∧
    0 ≤ pyRound2 ((2 - 1) / 2 * 100) := by
  constructor
  · exact (c9_discount_create_amended
      { id := none, uuid := none, store_id := 1, product_name := codes "y",
        category_id := none, regular_price := some 4, sale_price := some 5,
        unit := none, quantity := none, discount_percentage := some 10,
        valid_from := ⟨2025, 1, 1⟩, valid_to := ⟨2025, 1, 7⟩,
        source_url := none, image_url := none, description := none }).1 10 rfl
  · exact ((c9_discount_create_amended
      { id := none, uuid := none, store_id := 1, product_name := codes "y",
        category_id := none, regular_price := some 4, sale_price := some 5,
        unit := none, quantity := none, discount_percentage := some 10,
        valid_from := ⟨2025, 1, 1⟩, valid_to := ⟨2025, 1, 7⟩,
        source_url := none, image_url := none,
        description := none }).2.2.2.1 2 1 (by norm_num) (by norm_num)).1

/-! ## C8 — load-time validation -/


/-- C8 (counterexample): the claim says a staged record failing the §3 range
    checks (negative price, `valid_from > valid_to`, empty product name) is
    reported failed with a validation error and nothing is written. The
    pydantic model has no range validators: this record violates all three
    checks at once, yet the loader reports success and persists one row. -/
theorem c8_validation_counterexample :
    (load_deal_from_json rawRangeViolations emptyDB).1.success = true ∧
    (load_deal_from_json rawRangeViolations emptyDB).1.already_exists = false ∧
    (load_deal_from_json rawRangeViolations emptyDB).1.error = none ∧
    (load_deal_from_json rawRangeViolations emptyDB).2.rows.length = 1 ∧
    rawRangeViolations.product_name = some [] ∧
    rawRangeViolations.sale_price = some (-1) ∧ ((-1 : ℚ) < 0) ∧
    parseIsoDate (codes "2025-01-07") = some ⟨2025, 1, 7⟩ ∧
    parseIsoDate (codes "2025-01-01") = some ⟨2025, 1, 1⟩ ∧
    rawRangeViolations.valid_from = some (codes "2025-01-07") ∧
    rawRangeViolations.valid_to = some (codes "2025-01-01") := by
  refine ⟨rfl, rfl, rfl, rfl, rfl, rfl, by norm_num, by decide, by decide, rfl, rfl⟩

/-- C8 (amended): the loader reports a staged record as failed with a
    validation error and performs no write exactly when the record fails the
    canonical shape (a missing required field, or a date string that does not
    parse); the §3 range checks (non-negative prices, `valid_from <=
    valid_to`, non-empty product name) are not enforced at load time. -/
theorem c8_validation_amended (raw : RawDeal) (db : Database) :
    (validateStaged raw = none →
      load_deal_from_json raw db =
        ({ success := false, already_exists := false,
           error := some (codes "validation error"), deal_id := none }, db)) ∧
    (validateStaged raw = none ↔
      raw.store_id = none ∨ raw.product_name = none ∨
      raw.valid_from = none ∨ raw.valid_to = none ∨
      (∃ vfs, raw.valid_from = some vfs ∧ parseIsoDate vfs = none) ∨
      (∃ vts, raw.valid_to = some vts ∧ parseIsoDate vts = none)) := by
  constructor
  · intro h
    unfold load_deal_from_json
    rw [h]
  · unfold validateStaged
    cases hsid : raw.store_id <;> cases hpn : raw.product_name <;>
      cases hvf : raw.valid_from <;> cases hvt : raw.valid_to <;>
        simp_all
    rename_i vfs vts
    cases hpf : parseIsoDate vfs <;> cases hpt : parseIsoDate vts <;> simp_all


/-- C8 amended, witnessed: a record with an unparsable `valid_from` string is
    reported failed with a validation error and the store is left unchanged. -/
theorem c8_validation_amended_witness :
    load_deal_from_json rawBadDate emptyDB =
      ({ success := false, already_exists := false,
         error := some (codes "validation error"), deal_id := none }, emptyDB) :=
  (c8_validation_amended rawBadDate emptyDB).1 (by decide)

/-! ## C1 — idempotent load -/

theorem applyDiscountRecompute_uuid (d : GroceryDeal) :
    (applyDiscountRecompute d).uuid = d.uuid := by
  obtain ⟨i, u, sid, pn, cid, rp, sp, un, qn, dp, vf, vt, su, iu, de⟩ := d
  unfold applyDiscountRecompute
  split_ifs with h
  · cases rp <;> cases sp <;> rfl
  · rfl

theorem applyUuid_uuid_exists (d : GroceryDeal) :
    ∃ u : List Nat, (applyUuid d).uuid = some u ∧ u ≠ [] := by
  unfold applyUuid
  split_ifs with h
  · cases hu : d.uuid with
    | none =>
        rw [hu] at h
        exact absurd h (by simp [pyTruthyStr])
    | some u =>
        rw [hu] at h
        exact ⟨u, rfl, by simpa [pyTruthyStr] using h⟩
  · refine ⟨generate_grocery_deal_uuid d.product_name d.store_id d.valid_from d.valid_to,
      rfl, ?_⟩
    intro hcontra
    have h36 : (generate_grocery_deal_uuid d.product_name d.store_id
        d.valid_from d.valid_to).length = 36 := by
      unfold generate_grocery_deal_uuid
      exact uuidStringCodes_length _
    rw [hcontra] at h36
    cases h36

theorem create_eq (db : Database) (deal : GroceryDeal) :
    GroceryService.create db deal =
      if (db.rows.any (fun r =>
            decide (r.deal.uuid = (applyDiscountRecompute (applyUuid deal)).uuid))) = true
      then (none, applyDiscountRecompute (applyUuid deal), db)
      else (some { applyDiscountRecompute (applyUuid deal) with id := some db.nextId },
            applyDiscountRecompute (applyUuid deal),
            ⟨db.rows ++ [⟨db.nextId,
              { applyDiscountRecompute (applyUuid deal) with id := some db.nextId }⟩],
             db.nextId + 1⟩) := by
  unfold GroceryService.create dbInsert
  dsimp only
  split_ifs with h
  · rfl
  · rfl

theorem load_invalid (raw : RawDeal) (db : Database) (h : validateStaged raw = none) :
    load_deal_from_json raw db =
      ({ success := false, already_exists := false,
         error := some (codes "validation error"), deal_id := none }, db) := by
  unfold load_deal_from_json
  rw [h]

theorem load_fresh (raw : RawDeal) (d : GroceryDeal) (db : Database)
    (hv : validateStaged raw = some d)
    (h : (db.rows.any (fun r =>
        decide (r.deal.uuid = (applyDiscountRecompute (applyUuid d)).uuid))) = false) :
    load_deal_from_json raw db =
      ({ success := true, already_exists := false, error := none,
         deal_id := some db.nextId },
       ⟨db.rows ++ [⟨db.nextId,
          { applyDiscountRecompute (applyUuid d) with id := some db.nextId }⟩],
        db.nextId + 1⟩) := by
  unfold load_deal_from_json
  rw [hv]
  dsimp only
  rw [create_eq, if_neg (by rw [h]; simp)]

theorem load_dup (raw : RawDeal) (d : GroceryDeal) (db : Database)
    (hv : validateStaged raw = some d)
    (h : (db.rows.any (fun r =>
        decide (r.deal.uuid = (applyDiscountRecompute (applyUuid d)).uuid))) = true) :
    ∃ u row, (applyUuid d).uuid = some u ∧ dbGetByUuid db u = some row ∧
      load_deal_from_json raw db =
        ({ success := true, already_exists := true, error := none,
           deal_id := some row.id }, db) := by
  obtain ⟨u, hu, hune⟩ := applyUuid_uuid_exists d
  have hu2 : (applyDiscountRecompute (applyUuid d)).uuid = some u := by
    rw [applyDiscountRecompute_uuid]
    exact hu
  have hfind : ∃ row, dbGetByUuid db u = some row := by
    rw [← Option.isSome_iff_exists]
    unfold dbGetByUuid
    rw [List.find?_isSome]
    obtain ⟨r, hrmem, hrp⟩ := List.any_eq_true.mp h
    rw [hu2] at hrp
    exact ⟨r, hrmem, hrp⟩
  obtain ⟨row, hrow⟩ := hfind
  refine ⟨u, row, hu, hrow, ?_⟩
  unfold load_deal_from_json
  rw [hv]
  dsimp only
  rw [create_eq, if_pos h]
  dsimp only
  rw [hu2]
  have htr : pyTruthyStr (some u) = true := by simpa [pyTruthyStr] using hune
  rw [htr]
  dsimp only
  rw [hrow]

theorem load_db_shape (raw : RawDeal) (db : Database) :
    (validateStaged raw = none ∧ (load_deal_from_json raw db).2 = db) ∨
    (∃ d, validateStaged raw = some d ∧
      (db.rows.any (fun r =>
        decide (r.deal.uuid = (applyDiscountRecompute (applyUuid d)).uuid))) = true ∧
      (load_deal_from_json raw db).2 = db) ∨
    (∃ d, validateStaged raw = some d ∧
      (db.rows.any (fun r =>
        decide (r.deal.uuid = (applyDiscountRecompute (applyUuid d)).uuid))) = false ∧
      (load_deal_from_json raw db).2 =
        ⟨db.rows ++ [⟨db.nextId,
          { applyDiscountRecompute (applyUuid d) with id := some db.nextId }⟩],
         db.nextId + 1⟩) := by
  cases hv : validateStaged raw with
  | none =>
      left
      exact ⟨rfl, by rw [load_invalid raw db hv]⟩
  | some d =>
      cases hc : (db.rows.any (fun r =>
          decide (r.deal.uuid = (applyDiscountRecompute (applyUuid d)).uuid))) with
      | true =>
          right
          left
          obtain ⟨u, row, -, -, hload⟩ := load_dup raw d db hv hc
          exact ⟨d, rfl, hc, by rw [hload]⟩
      | false =>
          right
          right
          exact ⟨d, rfl, hc, by rw [load_fresh raw d db hv hc]⟩

theorem load_rows_mono (raw : RawDeal) (db : Database) (r : DealRow)
    (h : r ∈ db.rows) : r ∈ (load_deal_from_json raw db).2.rows := by
  rcases load_db_shape raw db with ⟨-, heq⟩ | ⟨d, -, -, heq⟩ | ⟨d, -, -, heq⟩
  · rw [heq]
    exact h
  · rw [heq]
    exact h
  · rw [heq]
    exact List.mem_append_left _ h

theorem load_any_mono (raw : RawDeal) (db : Database) (p : DealRow → Bool)
    (h : db.rows.any p = true) : (load_deal_from_json raw db).2.rows.any p = true := by
  obtain ⟨r, hm, hp⟩ := List.any_eq_true.mp h
  exact List.any_eq_true.mpr ⟨r, load_rows_mono raw db r hm, hp⟩

theorem load_covers (raw : RawDeal) (d : GroceryDeal) (db : Database)
    (hv : validateStaged raw = some d) :
    ((load_deal_from_json raw db).2).rows.any (fun r =>
      decide (r.deal.uuid = (applyDiscountRecompute (applyUuid d)).uuid)) = true := by
  rcases load_db_shape raw db with ⟨hn, -⟩ | ⟨d', hv', hc', heq⟩ | ⟨d', hv', hc', heq⟩
  · rw [hv] at hn
    cases hn
  · rw [hv] at hv'
    injection hv' with hdd
    subst hdd
    rw [heq]
    exact hc'
  · rw [hv] at hv'
    injection hv' with hdd
    subst hdd
    rw [heq]
    apply List.any_eq_true.mpr
    refine ⟨⟨db.nextId, { applyDiscountRecompute (applyUuid d) with id := some db.nextId }⟩,
      List.mem_append_right _ (by simp), ?_⟩
    simp

theorem load_stable (raw : RawDeal) (db : Database)
    (hcov : ∀ d, validateStaged raw = some d →
      (db.rows.any (fun r =>
        decide (r.deal.uuid = (applyDiscountRecompute (applyUuid d)).uuid))) = true) :
    (load_deal_from_json raw db).2 = db := by
  rcases load_db_shape raw db with ⟨-, heq⟩ | ⟨d, -, -, heq⟩ | ⟨d, hv, hc, -⟩
  · exact heq
  · exact heq
  · rw [hcov d hv] at hc
    cases hc

theorem loadDirectory_any_mono (raws : List RawDeal) :
    ∀ (db : Database) (p : DealRow → Bool), db.rows.any p = true →
      (loadDirectory db raws).rows.any p = true := by
  induction raws with
  | nil =>
      intro db p h
      exact h
  | cons raw rest ih =>
      intro db p h
      unfold loadDirectory
      rw [List.foldl_cons]
      exact ih _ p (load_any_mono raw db p h)

theorem loadDirectory_covers (raws : List RawDeal) :
    ∀ (db : Database) (raw : RawDeal) (d : GroceryDeal), raw ∈ raws →
      validateStaged raw = some d →
      (loadDirectory db raws).rows.any (fun r =>
        decide (r.deal.uuid = (applyDiscountRecompute (applyUuid d)).uuid)) = true := by
  induction raws with
  | nil =>
      intro db raw d hm
      cases hm
  | cons r0 rest ih =>
      intro db raw d hm hv
      unfold loadDirectory
      rw [List.foldl_cons]
      rcases List.mem_cons.mp hm with rfl | hm'
      · exact loadDirectory_any_mono rest _ _ (load_covers raw d db hv)
      · exact ih _ raw d hm' hv

theorem loadDirectory_stable (raws : List RawDeal) :
    ∀ db : Database, (∀ raw ∈ raws, ∀ d, validateStaged raw = some d →
        (db.rows.any (fun r =>
          decide (r.deal.uuid = (applyDiscountRecompute (applyUuid d)).uuid))) = true) →
      loadDirectory db raws = db := by
  induction raws with
  | nil =>
      intro db _
      rfl
  | cons raw rest ih =>
      intro db hcov
      unfold loadDirectory
      rw [List.foldl_cons]
      have h1 : (load_deal_from_json raw db).2 = db :=
        load_stable raw db (fun d hv => hcov raw (by simp) d hv)
      rw [h1]
      exact ih db (fun raw' hm d hv => hcov raw' (by simp [hm]) d hv)

theorem loadDirectory_idem (db : Database) (raws : List RawDeal) :
    loadDirectory (loadDirectory db raws) raws = loadDirectory db raws :=
  loadDirectory_stable raws _ (fun raw hm d hv => loadDirectory_covers raws db raw d hm hv)

/-- C1: loading the same staged record twice against a store that starts
    empty yields exactly one persisted row after both runs; the second run
    reports already-exists success (not failure) with the existing record's
    identifier, obtained by looking it up by uuid; and replaying a staged
    file set any number of times converges to the same final row set as one
    replay. -/
theorem c1_idempotent_load (raw : RawDeal) (d : GroceryDeal)
    (hv : validateStaged raw = some d) :
    ((load_deal_from_json raw emptyDB).1.success = true ∧
     (load_deal_from_json raw emptyDB).1.already_exists = false ∧
     (load_deal_from_json raw emptyDB).2.rows.length = 1 ∧
     (load_deal_from_json raw (load_deal_from_json raw emptyDB).2).2 =
       (load_deal_from_json raw emptyDB).2 ∧
     (load_deal_from_json raw (load_deal_from_json raw emptyDB).2).1.success = true ∧
     (load_deal_from_json raw (load_deal_from_json raw emptyDB).2).1.already_exists = true ∧
     (load_deal_from_json raw (load_deal_from_json raw emptyDB).2).1.error = none ∧
     (load_deal_from_json raw (load_deal_from_json raw emptyDB).2).1.deal_id =
       (load_deal_from_json raw emptyDB).1.deal_id) ∧
    (∀ (raws : List RawDeal) (n : Nat),
      (fun dbx => loadDirectory dbx raws)^[n + 1] emptyDB = loadDirectory emptyDB raws) := by
  constructor
  · have hany0 : (emptyDB.rows.any (fun r =>
        decide (r.deal.uuid = (applyDiscountRecompute (applyUuid d)).uuid))) = false := rfl
    have h1 := load_fresh raw d emptyDB hv hany0
    obtain ⟨u, hu, hune⟩ := applyUuid_uuid_exists d
    have hu2 : (applyDiscountRecompute (applyUuid d)).uuid = some u := by
      rw [applyDiscountRecompute_uuid]
      exact hu
    have hdb1 : (load_deal_from_json raw emptyDB).2 =
        ⟨[⟨1, { applyDiscountRecompute (applyUuid d) with id := some 1 }⟩], 2⟩ := by
      rw [h1]
      rfl
    have hany1 : ((⟨[⟨1, { applyDiscountRecompute (applyUuid d) with id := some 1 }⟩], 2⟩ :
        Database).rows.any (fun r =>
          decide (r.deal.uuid = (applyDiscountRecompute (applyUuid d)).uuid))) = true := by
      apply List.any_eq_true.mpr
      refine ⟨⟨1, { applyDiscountRecompute (applyUuid d) with id := some 1 }⟩, by simp, ?_⟩
      rw [decide_eq_true_eq]
    obtain ⟨u', row, hu', hrow, hload2⟩ :=
      load_dup raw d (load_deal_from_json raw emptyDB).2 hv (by rw [hdb1]; exact hany1)
    have huu : u' = u := by
      rw [hu] at hu'
      injection hu' with h'
      exact h'.symm
    rw [huu] at hrow
    have hrow0 : dbGetByUuid (load_deal_from_json raw emptyDB).2 u =
        some ⟨1, { applyDiscountRecompute (applyUuid d) with id := some 1 }⟩ := by
      rw [hdb1]
      unfold dbGetByUuid
      simp [List.find?, hu2]
    have hrown : row = ⟨1, { applyDiscountRecompute (applyUuid d) with id := some 1 }⟩ := by
      rw [hrow0] at hrow
      injection hrow with h'
      exact h'.symm
    subst hrown
    refine ⟨by rw [h1], by rw [h1], by rw [hdb1]; rfl, by rw [hload2], by rw [hload2],
      by rw [hload2], by rw [hload2], ?_⟩
    rw [hload2, h1]
    rfl
  · intro raws n
    induction n with
    | zero => rw [Function.iterate_one]
    | succ m ih =>
        rw [Function.iterate_succ_apply', ih]
        exact loadDirectory_idem emptyDB raws



/-- C1, witnessed on a concrete staged record: one row after the first load,
    the second load reports already-exists and leaves the store unchanged. -/
theorem c1_idempotent_load_witness :
    (load_deal_from_json rawStaged1 emptyDB).2.rows.length = 1 ∧
    (load_deal_from_json rawStaged1
      (load_deal_from_json rawStaged1 emptyDB).2).1.already_exists = true ∧
    (load_deal_from_json rawStaged1
      (load_deal_from_json rawStaged1 emptyDB).2).2 =
      (load_deal_from_json rawStaged1 emptyDB).2 := by
  have h := (c1_idempotent_load rawStaged1 dealStaged1 (by decide)).1
  exact ⟨h.2.2.1, h.2.2.2.2.2.1, h.2.2.2.1⟩
